import Mathlib

/-
Verification development for the streaming speech-inference pipeline
(src/streaming.py and src/speech/loader.py).

Modelling conventions:
* Queues are Lean lists (front = oldest element); `Queue.put` appends at the
  back, `Queue.get` takes from the front, matching Python's FIFO `queue.Queue`.
* A raw mic chunk is a list of byte values (`List ℕ`, values 0..255), an
  audio frame is a list of decoded signed 16-bit samples (`List ℤ`).
* `scipy.signal.spectrogram` is an external collaborator; it is modelled as an
  abstract function parameter `S : SpecFn` receiving exactly the arguments the
  repository code passes (sample rate, window kind, nperseg, noverlap,
  detrend) and returning the (frequency x time) matrix of spectral energies.
  Likewise `np.log` is an abstract `lg : ℚ → ℚ` guarded by `safeLog`, which
  returns `none` when the float computation would produce NaN or -infinity
  (logarithm of a non-positive number), and `safeDiv` returns `none` for a
  division by zero.  Real arithmetic is idealised over ℚ (the float32 cast in
  loader.py line 208 is the identity in this idealisation).
* Each worker loop is modelled by its drained, sequential semantics: the
  effect of running the loop body on the items available in its input queue
  until the loop blocks on an empty queue.
-/

namespace Streaming

/-- A raw chunk of bytes as read from the capture subprocess stdout. -/
abbrev Chunk := List ℕ

/-- An audio frame: decoded signed 16-bit samples (`np.int16` array). -/
abbrev AudioFrame := List ℤ

/-- A normalized feature frame, indexed (time, frequency), entries `none`
when the float computation is ill-defined (NaN or an infinity). -/
abbrev FeatureFrame := ℕ → ℕ → Option ℚ

/-- A raw symbol-index sequence returned by the external model for one
example of a batch. -/
abbrev RawPred := List ℤ

/-- Window argument passed to `scipy.signal.spectrogram` (the code passes
the string constant hann, loader.py line 201). -/
inductive Window where
  | hann
  deriving DecidableEq

/-- The argument record the repository code hands to the external
`scipy.signal.spectrogram` call: sampling frequency `fs`, window kind,
segment length `nperseg`, overlap `noverlap`, and the detrend flag. -/
structure SpecgramArgs where
  fs : ℕ
  window : Window
  nperseg : ℕ
  noverlap : ℕ
  detrend : Bool
  deriving DecidableEq

/-- Type of the external spectrogram collaborator: given the call arguments
and the audio samples it yields the spectral-energy matrix, indexed
(frequency bin, time step) exactly as scipy returns `spec` before the
transpose in loader.py line 208. -/
abbrev SpecFn := SpecgramArgs → List ℤ → ℕ → ℕ → ℚ

/-- Numerical floor added before the logarithm (loader.py line 195,
`eps=1e-10`). -/
def eps : ℚ := 1 / 10 ^ 10

/-- Float logarithm guard: `np.log x` is a well-defined finite float only
for `0 < x`; otherwise the float pipeline yields -infinity (`x = 0`) or NaN
(`x < 0`), modelled as `none`.  The logarithm value itself is the abstract
collaborator `lg`. -/
def safeLog (lg : ℚ → ℚ) (x : ℚ) : Option ℚ :=
  if 0 < x then some (lg x) else none

/-- Float division guard: division by zero yields NaN or an infinity,
modelled as `none`. -/
def safeDiv (x y : ℚ) : Option ℚ :=
  if y = 0 then none else some (x / y)

/-- Little-endian decoding of one signed 16-bit sample from two bytes, as
`np.frombuffer(..., dtype=np.int16)` does on each byte pair. -/
def int16_of_pair (b0 b1 : ℕ) : ℤ :=
  let v := b0 % 256 + 256 * (b1 % 256)
  if v < 32768 then (v : ℤ) else (v : ℤ) - 65536

/-- Model of `np.frombuffer(buffer, dtype=np.int16)` (streaming.py line
105): reinterpret the byte buffer as consecutive little-endian signed
16-bit samples. -/
def np_frombuffer_int16 : List ℕ → List ℤ
  | b0 :: b1 :: rest => int16_of_pair b0 b1 :: np_frombuffer_int16 rest
  | _ => []

/-- Model of `subproc.stdout.read(512)` (streaming.py line 79).  The
subprocess pipe was opened with `bufsize=0`, so `read` is a raw (single
`os.read`) call: it returns at most `n` bytes and returns fewer when fewer
(`avail`) bytes are currently available in the pipe. -/
def raw_read (n avail : ℕ) (s : List ℕ) : Chunk :=
  s.take (min n avail)

/-- Kinds of worker threads the start methods spawn (`Thread(target=...)`,
streaming.py lines 61 and 89).  No start method exists for the preprocess
or infer loops; they are invoked synchronously (streaming.py lines 172 and
174). -/
inductive WorkerKind where
  | micRecord
  | audioCollector (audio_buffer_size : ℕ)
  deriving DecidableEq

/-- The mutable state of a `StreamInfer` object: the three FIFO queues and
the prediction list (streaming.py lines 48-52), plus the set of worker
threads spawned so far. -/
structure StreamState where
  audio_q : List Chunk
  preprocess_q : List AudioFrame
  model_q : List FeatureFrame
  predictions : List String
  workers : List WorkerKind

/-- Model of `StreamInfer.start_stream` (streaming.py lines 56-62): spawns
one mic-record worker thread and returns; the `audio_buffer_size` argument
is accepted but never used, and no queue is touched. -/
def start_stream (audio_buffer_size : ℕ) (σ : StreamState) : StreamState :=
  { σ with workers := σ.workers ++ [WorkerKind.micRecord] }

/-- Model of `StreamInfer.start_collection` (streaming.py lines 87-90):
spawns one audio-collection worker thread bound to the given buffer size
and returns without touching any queue. -/
def start_collection (audio_buffer_size : ℕ) (σ : StreamState) : StreamState :=
  { σ with workers := σ.workers ++ [WorkerKind.audioCollector audio_buffer_size] }

/-- One iteration of the `mic_record` loop body (streaming.py lines 78-80):
read up to 512 bytes from the capture pipe (of which `avail` bytes are
currently available) and put the result, whatever its length, on
`audio_q`. -/
def mic_record_step (avail : ℕ) (stream : List ℕ) (σ : StreamState) : StreamState :=
  { σ with audio_q := σ.audio_q ++ [raw_read 512 avail stream] }

/-- Drained semantics of the `audio_collection` loop (streaming.py lines
93-112) on the chunks available in `audio_q`: repeatedly take
`audio_buffer_size` chunks, decode each with `np.frombuffer` and append
them in arrival order into one audio frame (`np.append`), and emit the
frame; stop when fewer than `audio_buffer_size` chunks remain (the loop
would block inside `self.audio_q.get()`). -/
def audio_collection (audio_buffer_size : ℕ) (chunks : List Chunk) : List AudioFrame :=
  if h : audio_buffer_size = 0 ∨ chunks.length < audio_buffer_size then []
  else
    ((chunks.take audio_buffer_size).map np_frombuffer_int16).flatten
      :: audio_collection audio_buffer_size (chunks.drop audio_buffer_size)
termination_by chunks.length
decreasing_by
  push_neg at h
  simp only [List.length_drop]
  omega

/-- The chunks left behind by the drained `audio_collection` loop: dequeued
into the partially filled `audio_buffer` (or still queued) but not part of
any emitted frame. -/
def audio_leftover (audio_buffer_size : ℕ) (chunks : List Chunk) : List Chunk :=
  if h : audio_buffer_size = 0 ∨ chunks.length < audio_buffer_size then chunks
  else audio_leftover audio_buffer_size (chunks.drop audio_buffer_size)
termination_by chunks.length
decreasing_by
  push_neg at h
  simp only [List.length_drop]
  omega

/-- Model of `log_specgram` (loader.py lines 194-208): compute
`nperseg = int(window_size * sample_rate / 1e3)` and
`noverlap = int(step_size * sample_rate / 1e3)` (exact integer quotients at
these magnitudes, so `int` truncation is ℕ division), call the external
`scipy.signal.spectrogram` with window hann and `detrend=False`, transpose
to (time, frequency), add `eps` and take the logarithm. -/
def log_specgram (S : SpecFn) (lg : ℚ → ℚ) (audio : List ℤ)
    (sample_rate window_size step_size : ℕ) : ℕ → ℕ → Option ℚ :=
  let nperseg := window_size * sample_rate / 1000
  let noverlap := step_size * sample_rate / 1000
  fun t k =>
    safeLog lg (S ⟨sample_rate, Window.hann, nperseg, noverlap, false⟩ audio k t + eps)

/-- Per-item body of the `preprocess` loop (streaming.py lines 121-124):
`log_specgram(np_array, sample_rate=16000)` followed by the per-frequency-
bin normalization `(log_spec - preproc.mean) / preproc.std`. -/
def preprocess_step (S : SpecFn) (lg : ℚ → ℚ) (mean std : ℕ → ℚ)
    (np_array : AudioFrame) : FeatureFrame :=
  fun t k =>
    (log_specgram S lg np_array 16000 20 10 t k).bind
      (fun v => safeDiv (v - mean k) (std k))

/-- Stated from the spec's words (section 4.3, the feature-extractor
contract): short-time spectrogram with a 20 ms analysis window and a 10 ms
hop at the fixed 16 kHz rate (scipy expresses the hop as
`noverlap = nperseg - hop`), Hann window, no detrending; add the floor
`eps = 1e-10` before the logarithm; then subtract the per-bin mean and
divide by the per-bin standard deviation. -/
def spec_feature_extractor (S : SpecFn) (lg : ℚ → ℚ) (mean std : ℕ → ℚ)
    (audio : AudioFrame) : FeatureFrame :=
  let fs := 16000
  let window_samples := 20 * fs / 1000
  let hop_samples := 10 * fs / 1000
  fun t k =>
    (safeLog lg
        (S ⟨fs, Window.hann, window_samples, window_samples - hop_samples, false⟩ audio k t
          + eps)).bind
      (fun v => safeDiv (v - mean k) (std k))

/-- Drained semantics of one synchronous call of `preprocess` (streaming.py
lines 115-126): the caller's thread itself runs the loop, converting every
frame waiting in `preprocess_q` and putting the results on `model_q`, until
the loop blocks on the empty queue.  No worker thread is spawned. -/
def preprocess_call (S : SpecFn) (lg : ℚ → ℚ) (mean std : ℕ → ℚ)
    (σ : StreamState) : StreamState :=
  { σ with
    preprocess_q := []
    model_q := σ.model_q ++ σ.preprocess_q.map (preprocess_step S lg mean std) }

/-- The dummy label used for the pseudo-batch (streaming.py line 131). -/
def fake_label : List ℤ := [27]

/-- A model-compatible pseudo-batch: a pair of a one-element tuple of
features and a one-element tuple of labels. -/
abbrev Batch := List FeatureFrame × List (List ℤ)

/-- Model of `dummy_batch = ((norm_log_spec,), (fake_label,))`
(streaming.py line 135). -/
def dummy_batch (f : FeatureFrame) : Batch :=
  ([f], [fake_label])

/-- Per-item body of the `infer` loop (streaming.py lines 134-138): wrap
the feature frame as a pseudo-batch, call the external model's `infer`,
decode every returned raw sequence, and extend the prediction list. -/
def infer_step (model : Batch → List RawPred) (dec : RawPred → String)
    (preds : List String) (f : FeatureFrame) : List String :=
  preds ++ (model (dummy_batch f)).map dec

/-- Drained semantics of one synchronous call of `infer` (streaming.py
lines 128-141): the caller's thread runs the loop over every feature frame
waiting in `model_q`, extending `predictions`, until the loop blocks on the
empty queue.  No worker thread is spawned. -/
def infer_call (model : Batch → List RawPred) (dec : RawPred → String)
    (σ : StreamState) : StreamState :=
  { σ with
    model_q := []
    predictions := List.foldl (infer_step model dec) σ.predictions σ.model_q }

/-- The four numbers `check_queue_size` reports (streaming.py lines
143-150), field names matching the printed labels.  Line 147 prints
`self.preprocess_q.qsize()` under the label audio_q size, so the first
reported number reads `preprocess_q`, not `audio_q`. -/
structure QueueReport where
  audio_q_size : ℕ
  preprocess_q_size : ℕ
  model_q_size : ℕ
  predictions_length : ℕ
  deriving DecidableEq

/-- Model of `check_queue_size` (streaming.py lines 143-150): pure reads of
queue sizes and the prediction count; no queue or list is mutated. -/
def check_queue_size (σ : StreamState) : QueueReport :=
  { audio_q_size := σ.preprocess_q.length
    preprocess_q_size := σ.preprocess_q.length
    model_q_size := σ.model_q.length
    predictions_length := σ.predictions.length }

/-- Result of running the whole drained pipeline on a list of input chunks:
the emitted audio frames, the feature frames, the number of `model.infer`
invocations, and the final prediction list. -/
structure PipelineRun where
  frames : List AudioFrame
  features : List FeatureFrame
  infer_calls : ℕ
  predictions : List String

/-- Sequential end-to-end composition of the three processing stages on a
list of captured chunks: aggregation (`audio_collection`), feature
extraction (`preprocess_step` per frame), and inference (`infer_step` per
feature frame, one `model.infer` invocation each). -/
def run_pipeline (audio_buffer_size : ℕ) (S : SpecFn) (lg : ℚ → ℚ)
    (mean std : ℕ → ℚ) (model : Batch → List RawPred) (dec : RawPred → String)
    (preds0 : List String) (chunks : List Chunk) : PipelineRun :=
  let frames := audio_collection audio_buffer_size chunks
  let features := frames.map (preprocess_step S lg mean std)
  { frames := frames
    features := features
    infer_calls := features.length
    predictions := List.foldl (infer_step model dec) preds0 features }

end Streaming

namespace Streaming

theorem audio_collection_of_lt (b : ℕ) (chunks : List Chunk)
    (hlt : chunks.length < b) : audio_collection b chunks = [] := by
  rw [audio_collection]
  simp [hlt]

theorem audio_collection_step (b : ℕ) (chunks : List Chunk)
    (hb : b ≠ 0) (hge : b ≤ chunks.length) :
    audio_collection b chunks =
      ((chunks.take b).map np_frombuffer_int16).flatten
        :: audio_collection b (chunks.drop b) := by
  rw [audio_collection]
  rw [dif_neg]
  push_neg
  exact ⟨hb, hge⟩

theorem audio_leftover_of_lt (b : ℕ) (chunks : List Chunk)
    (hlt : chunks.length < b) : audio_leftover b chunks = chunks := by
  rw [audio_leftover]
  simp [hlt]

theorem audio_leftover_step (b : ℕ) (chunks : List Chunk)
    (hb : b ≠ 0) (hge : b ≤ chunks.length) :
    audio_leftover b chunks = audio_leftover b (chunks.drop b) := by
  rw [audio_leftover]
  rw [dif_neg]
  push_neg
  exact ⟨hb, hge⟩

theorem two_step_induction {P : List ℕ → Prop} (h0 : P []) (h1 : ∀ x, P [x])
    (h2 : ∀ x y t, P t → P (x :: y :: t)) : ∀ l, P l
  | [] => h0
  | [x] => h1 x
  | x :: y :: t => h2 x y t (two_step_induction h0 h1 h2 t)

theorem np_frombuffer_append (a b : List ℕ) (ha : a.length % 2 = 0) :
    np_frombuffer_int16 (a ++ b) = np_frombuffer_int16 a ++ np_frombuffer_int16 b := by
  induction a using two_step_induction with
  | h0 => simp [np_frombuffer_int16]
  | h1 x => simp at ha
  | h2 x y t ih =>
      simp only [List.length_cons] at ha
      simp only [List.cons_append, np_frombuffer_int16, List.append_eq]
      rw [ih (by omega)]

theorem np_frombuffer_flatten (L : List Chunk) (h : ∀ c ∈ L, c.length % 2 = 0) :
    np_frombuffer_int16 L.flatten = (L.map np_frombuffer_int16).flatten := by
  induction L with
  | nil => simp [np_frombuffer_int16]
  | cons c t ih =>
      simp only [List.flatten_cons, List.map_cons]
      rw [np_frombuffer_append c t.flatten (h c (List.mem_cons_self c t))]
      rw [ih (fun x hx => h x (List.mem_cons_of_mem c hx))]

theorem np_frombuffer_length (l : List ℕ) :
    (np_frombuffer_int16 l).length = l.length / 2 := by
  induction l using two_step_induction with
  | h0 => rfl
  | h1 x => simp [np_frombuffer_int16]
  | h2 x y t ih =>
      show (int16_of_pair x y :: np_frombuffer_int16 t).length = (t.length + 1 + 1) / 2
      rw [List.length_cons, ih]
      omega

theorem audio_collection_flatten (b m : ℕ) (chunks : List Chunk)
    (hb : 0 < b) (hlen : chunks.length = m * b) :
    (audio_collection b chunks).flatten = (chunks.map np_frombuffer_int16).flatten := by
  induction m generalizing chunks with
  | zero =>
      have : chunks = [] := List.length_eq_zero.mp (by simpa using hlen)
      subst this
      rw [audio_collection_of_lt b [] (by simpa using hb)]
      simp
  | succ k ih =>
      have hge : b ≤ chunks.length := by
        rw [hlen, Nat.succ_mul]
        exact Nat.le_add_left _ _
      rw [audio_collection_step b chunks hb.ne' hge]
      rw [List.flatten_cons]
      rw [ih (chunks.drop b)
        (by rw [List.length_drop, hlen, Nat.succ_mul, Nat.add_sub_cancel])]
      rw [← List.flatten_append, ← List.map_append, List.take_append_drop]

end Streaming

namespace Streaming

/-- Claim C1: for every sequence of raw chunks fed to the aggregator whose
count is a multiple of `audio_buffer_size`, the produced audio frames,
concatenated in production order, are exactly the decoding of the
concatenated input bytes: no sample is lost, duplicated, or reordered. -/
theorem aggregator_reproduces_input (b m : ℕ) (chunks : List Chunk)
    (hb : 0 < b) (hlen : chunks.length = m * b)
    (heven : ∀ c ∈ chunks, c.length % 2 = 0) :
    (audio_collection b chunks).flatten = np_frombuffer_int16 chunks.flatten :=
  (audio_collection_flatten b m chunks hb hlen).trans
    (np_frombuffer_flatten chunks heven).symm

/-- Witness for claim C1 at four 2-byte chunks and buffer size 2. -/
theorem aggregator_reproduces_input_witness :
    0 < 2 ∧ ([[0, 1], [2, 3], [4, 5], [6, 7]] : List Chunk).length = 2 * 2 ∧
      (∀ c ∈ ([[0, 1], [2, 3], [4, 5], [6, 7]] : List Chunk), c.length % 2 = 0) ∧
      (audio_collection 2 [[0, 1], [2, 3], [4, 5], [6, 7]]).flatten =
        np_frombuffer_int16 ([[0, 1], [2, 3], [4, 5], [6, 7]] : List Chunk).flatten :=
  ⟨by decide, by decide, by decide,
    aggregator_reproduces_input 2 2 [[0, 1], [2, 3], [4, 5], [6, 7]]
      (by decide) (by decide) (by decide)⟩

/-- Claim C2: the feature extractor's output on a dequeued audio frame is
exactly the spectrogram described by the spec (20 ms Hann window, 10 ms
hop, no detrending, 16 kHz), floored by eps = 1e-10 before the logarithm
and then normalized per frequency bin by the external mean and standard
deviation. -/
theorem preprocess_matches_spec_extractor (S : SpecFn) (lg : ℚ → ℚ)
    (mean std : ℕ → ℚ) (audio : AudioFrame) :
    preprocess_step S lg mean std audio = spec_feature_extractor S lg mean std audio := by
  funext t k
  rfl

/-- Claim C3: feeding exactly `audio_buffer_size = 10` chunks of 512 bytes
each through the whole pipeline produces exactly one audio frame of 2560
16-bit samples (5120 bytes), exactly one feature frame, exactly one
invocation of the external model, and the prediction list grows by exactly
one entry (the model returns one symbol sequence for the one-example
pseudo-batch). -/
theorem pipeline_single_buffer (S : SpecFn) (lg : ℚ → ℚ) (mean std : ℕ → ℚ)
    (model : Batch → List RawPred) (dec : RawPred → String) (preds0 : List String)
    (chunks : List Chunk) (hlen : chunks.length = 10)
    (hchunk : ∀ c ∈ chunks, c.length = 512)
    (hmodel : ∀ b, (model b).length = 1) :
    (run_pipeline 10 S lg mean std model dec preds0 chunks).frames.length = 1 ∧
      (∀ fr ∈ (run_pipeline 10 S lg mean std model dec preds0 chunks).frames,
        fr.length = 2560) ∧
      (run_pipeline 10 S lg mean std model dec preds0 chunks).features.length = 1 ∧
      (run_pipeline 10 S lg mean std model dec preds0 chunks).infer_calls = 1 ∧
      (run_pipeline 10 S lg mean std model dec preds0 chunks).predictions.length =
        preds0.length + 1 := by
  have hframes : audio_collection 10 chunks = [(chunks.map np_frombuffer_int16).flatten] := by
    rw [audio_collection_step 10 chunks (by omega) (by omega)]
    rw [audio_collection_of_lt 10 _ (by simp [List.length_drop, hlen])]
    rw [show chunks.take 10 = chunks from by rw [← hlen, List.take_length]]
  have hfrlen : ((chunks.map np_frombuffer_int16).flatten).length = 2560 := by
    rw [List.length_flatten, List.map_map]
    rw [List.sum_eq_card_nsmul _ 256 ?_]
    · simp [hlen]
    · intro x hx
      simp only [List.mem_map, Function.comp_apply] at hx
      obtain ⟨c, hc, rfl⟩ := hx
      rw [np_frombuffer_length, hchunk c hc]
  refine ⟨?_, ?_, ?_, ?_, ?_⟩
  · simp [run_pipeline, hframes]
  · intro fr hfr
    simp only [run_pipeline, hframes, List.mem_singleton] at hfr
    rw [hfr]
    exact hfrlen
  · simp [run_pipeline, hframes]
  · simp [run_pipeline, hframes]
  · simp [run_pipeline, hframes, infer_step, hmodel]

/-- Witness for claim C3: ten 512-byte chunks of silence, a model returning
one symbol sequence per call. -/
theorem pipeline_single_buffer_witness :
    (List.replicate 10 (List.replicate 512 (0 : ℕ))).length = 10 ∧
      (run_pipeline 10 (fun _ _ _ _ => 0) (fun q => q) (fun _ => 0) (fun _ => 1)
          (fun _ => [[27]]) (fun _ => "") []
          (List.replicate 10 (List.replicate 512 0))).predictions.length = 1 :=
  ⟨by rw [List.length_replicate],
    (pipeline_single_buffer (fun _ _ _ _ => 0) (fun q => q) (fun _ => 0) (fun _ => 1)
        (fun _ => [[27]]) (fun _ => "") [] (List.replicate 10 (List.replicate 512 0))
        (by rw [List.length_replicate])
        (by intro c hc; rw [List.eq_of_mem_replicate hc, List.length_replicate])
        (fun b => rfl)).2.2.2.2⟩

/-- Claim C7: feeding 25 chunks with `audio_buffer_size = 10` into the
aggregator yields exactly two audio frames, built in order from chunks 1-10
and 11-20, and leaves chunks 21-25 buffered and not incorporated into any
emitted frame. -/
theorem aggregator_25_chunks (chunks : List Chunk) (h : chunks.length = 25) :
    audio_collection 10 chunks =
        [((chunks.take 10).map np_frombuffer_int16).flatten,
          (((chunks.drop 10).take 10).map np_frombuffer_int16).flatten] ∧
      audio_leftover 10 chunks = chunks.drop 20 := by
  constructor
  · rw [audio_collection_step 10 chunks (by omega) (by omega)]
    rw [audio_collection_step 10 (chunks.drop 10) (by omega)
      (by rw [List.length_drop, h]; omega)]
    rw [audio_collection_of_lt 10 ((chunks.drop 10).drop 10)
      (by simp [List.length_drop, h])]
  · rw [audio_leftover_step 10 chunks (by omega) (by omega)]
    rw [audio_leftover_step 10 (chunks.drop 10) (by omega)
      (by rw [List.length_drop, h]; omega)]
    rw [audio_leftover_of_lt 10 ((chunks.drop 10).drop 10)
      (by simp [List.length_drop, h])]
    rw [List.drop_drop]

/-- Witness for claim C7 at 25 concrete 2-byte chunks. -/
theorem aggregator_25_chunks_witness :
    (List.replicate 25 ([0, 0] : Chunk)).length = 25 ∧
      audio_collection 10 (List.replicate 25 ([0, 0] : Chunk)) =
          [(((List.replicate 25 ([0, 0] : Chunk)).take 10).map np_frombuffer_int16).flatten,
            ((((List.replicate 25 ([0, 0] : Chunk)).drop 10).take 10).map
                np_frombuffer_int16).flatten] ∧
        audio_leftover 10 (List.replicate 25 ([0, 0] : Chunk)) =
          (List.replicate 25 ([0, 0] : Chunk)).drop 20 :=
  ⟨by rw [List.length_replicate],
    aggregator_25_chunks (List.replicate 25 [0, 0]) (by rw [List.length_replicate])⟩

/-- Claim C8: on an audio frame of all-zero samples the feature extractor
produces no NaN and no negative-infinity entry in any bin, given that the
external spectrogram values are nonnegative (they are squared magnitudes)
and the externally supplied per-bin standard deviation is nonzero: the
floor eps = 1e-10 makes every logarithm argument positive. -/
theorem feature_extractor_zero_frame_defined (S : SpecFn) (lg : ℚ → ℚ)
    (mean std : ℕ → ℚ) (n t k : ℕ)
    (hS : 0 ≤ S ⟨16000, Window.hann, 20 * 16000 / 1000, 10 * 16000 / 1000, false⟩
        (List.replicate n 0) k t)
    (hstd : std k ≠ 0) :
    (preprocess_step S lg mean std (List.replicate n 0) t k).isSome = true := by
  have hpos : 0 < S ⟨16000, Window.hann, 20 * 16000 / 1000, 10 * 16000 / 1000, false⟩
      (List.replicate n 0) k t + eps := by
    have heps : (0 : ℚ) < eps := by norm_num [eps]
    linarith
  simp only [preprocess_step, log_specgram, safeLog, safeDiv]
  rw [if_pos hpos]
  simp [hstd]

/-- Witness for claim C8: the zero spectrogram, identity log, zero mean,
unit standard deviation, a 2560-sample zero frame. -/
theorem feature_extractor_zero_frame_defined_witness :
    ((0 : ℚ) ≤ 0) ∧ ((1 : ℚ) ≠ 0) ∧
      (preprocess_step (fun _ _ _ _ => 0) (fun q => q) (fun _ => 0) (fun _ => 1)
          (List.replicate 2560 0) 0 0).isSome = true :=
  ⟨le_refl 0, one_ne_zero,
    feature_extractor_zero_frame_defined (fun _ _ _ _ => 0) (fun q => q) (fun _ => 0)
      (fun _ => 1) 2560 0 0 (le_refl 0) one_ne_zero⟩

/-- Claim C6: the prediction accumulator is append-only and
order-preserving; feeding feature frames F1, F2, F3 sequentially through
the infer stage leaves the initial predictions untouched as a prefix and
appends the decoded results in exactly the order P1, P2, P3. -/
theorem infer_appends_predictions_in_order (model : Batch → List RawPred)
    (dec : RawPred → String) (preds0 : List String) (f1 f2 f3 : FeatureFrame) :
    List.foldl (infer_step model dec) preds0 [f1, f2, f3] =
      preds0 ++
        ((model (dummy_batch f1)).map dec ++
          ((model (dummy_batch f2)).map dec ++ (model (dummy_batch f3)).map dec)) := by
  simp [infer_step, List.append_assoc]

/-- Claim C4 failing state: `check_queue_size` reports the length of
`preprocess_q` under the label audio_q size (streaming.py line 147), so
with one chunk waiting in `audio_q` and an empty `preprocess_q` the
reported capture-queue depth is 0 while the real depth is 1; the depth of
`audio_q` is never read at all. -/
theorem check_queue_size_misreports_audio_q :
    (check_queue_size ⟨[[0]], [], [], [], []⟩).audio_q_size = 0 ∧
      (⟨[[0]], [], [], [], []⟩ : StreamState).audio_q.length = 1 :=
  ⟨rfl, rfl⟩

/-- Claim C5 failing state: with only 100 bytes available in the capture
pipe, the raw `read(512)` (the pipe is opened with `bufsize=0`) returns a
100-byte chunk, and `mic_record` enqueues it as is: a partial chunk of
length 100, not 512, reaches `audio_q` without being refilled. -/
theorem mic_record_forwards_partial_read :
    ((mic_record_step 100 (List.replicate 600 3) ⟨[], [], [], [], []⟩).audio_q.map
        List.length) = [100] ∧ (100 : ℕ) ≠ 512 := by
  constructor
  · simp only [mic_record_step, raw_read, List.nil_append, List.map_cons, List.map_nil]
    rw [List.length_take, List.length_replicate]
    norm_num
  · decide

/-- Claim C9, amended: `start_stream` and `start_collection` each spawn
exactly one worker bound to its stage and return with every queue and the
prediction list untouched, and calling them again spawns an additional
competing worker; but the feature-extraction and inference stages have no
spawning start operation: calling `preprocess` or `infer` spawns no worker
and synchronously runs the stage loop in the caller's thread. -/
theorem start_ops_amended :
    (∀ v σ, (start_stream v σ).workers = σ.workers ++ [WorkerKind.micRecord] ∧
        (start_stream v σ).audio_q = σ.audio_q ∧
        (start_stream v σ).preprocess_q = σ.preprocess_q ∧
        (start_stream v σ).model_q = σ.model_q ∧
        (start_stream v σ).predictions = σ.predictions) ∧
      (∀ b σ, (start_collection b σ).workers =
            σ.workers ++ [WorkerKind.audioCollector b] ∧
          (start_collection b σ).audio_q = σ.audio_q ∧
          (start_collection b σ).preprocess_q = σ.preprocess_q ∧
          (start_collection b σ).model_q = σ.model_q ∧
          (start_collection b σ).predictions = σ.predictions) ∧
      (∀ v w σ, (start_stream v (start_stream w σ)).workers =
          σ.workers ++ [WorkerKind.micRecord, WorkerKind.micRecord]) ∧
      (∀ S lg mean std σ, (preprocess_call S lg mean std σ).workers = σ.workers ∧
          (preprocess_call S lg mean std σ).preprocess_q = [] ∧
          (preprocess_call S lg mean std σ).model_q =
            σ.model_q ++ σ.preprocess_q.map (preprocess_step S lg mean std)) ∧
      (∀ model dec σ, (infer_call model dec σ).workers = σ.workers ∧
          (infer_call model dec σ).model_q = [] ∧
          (infer_call model dec σ).predictions =
            List.foldl (infer_step model dec) σ.predictions σ.model_q) := by
  refine ⟨?_, ?_, ?_, ?_, ?_⟩ <;> intros <;>
    simp [start_stream, start_collection, preprocess_call, infer_call]

/-- Claim C9 counterexample: invoking the feature-extraction stage
operation (`preprocess`) on a state with one frame queued spawns zero
workers, not one, and synchronously consumes the queued frame instead of
returning without processing. -/
theorem preprocess_call_runs_synchronously :
    (preprocess_call (fun _ _ _ _ => 0) (fun q => q) (fun _ => 0) (fun _ => 1)
          ⟨[], [List.replicate 2560 0], [], [], []⟩).workers.length = 0 ∧
      (⟨[], [List.replicate 2560 0], [], [], []⟩ : StreamState).preprocess_q.length = 1 ∧
      (preprocess_call (fun _ _ _ _ => 0) (fun q => q) (fun _ => 0) (fun _ => 1)
          ⟨[], [List.replicate 2560 0], [], [], []⟩).preprocess_q.length = 0 :=
  ⟨rfl, rfl, rfl⟩

/-- Claim C10: the `audio_buffer_size` argument of `start_stream` has no
effect on behavior; for any two values the resulting states are identical
(the spawned capture worker always reads fixed 512-byte chunks). -/
theorem start_stream_ignores_buffer_size :
    ∀ v w σ, start_stream v σ = start_stream w σ :=
  fun _ _ _ => rfl

end Streaming
